import Mathlib

/-!
Verification development for the `webapp_exporter` repository.

The repository is a set of Prometheus exporters that poll the Azure
management API for Web App and App Service Plan metrics.  This file
gives a shallow embedding of the pieces the specification talks about:

* the JSON response normalizer `get_metric_value`
  (src/sav/webapp_exporter_azure_planname.py, identical in
  src/sav/webapp_exporter_azure_副本.py),
* the per-cycle collection logic `get_azure_metrics` / `update_metrics`
  and the plan-name resolver `get_webapp_plan_name`,
* the metric-name sanitizer `sanitize_metric_name`
  (src/webapp_exporter_azure.py),
* the configuration loaders `load_webapp_configs` (src/sav) and
  `load_config` (src/webapp_exporter_azure.py),
* the subprocess watchdog `monitor_subprocess` (src/sav/main_exporter.py.py),
* a credential cache modelled from the specification (the caching itself
  lives in the external azure.identity library, not in the sources).
-/

/-! ## JSON values

Python objects reachable from a parsed JSON document.  Numbers are
modelled as rationals (no arithmetic is ever performed on them, they are
passed through to the registry unchanged). -/

inductive JValue where
  | null
  | bool (b : Bool)
  | num (q : ℚ)
  | str (s : String)
  | arr (elems : List JValue)
  | obj (fields : List (String × JValue))

/-- Python truthiness (`if x:`) of a JSON value. -/
def truthy : JValue → Bool
  | .null => false
  | .bool b => b
  | .num q => !(q == 0)
  | .str s => !(s == "")
  | .arr xs => !xs.isEmpty
  | .obj fs => !fs.isEmpty

/-- Python `d.get(k, dflt)`: raises (TypeError/AttributeError) unless `d`
is a dict; a raised exception is `Except.error ()`. -/
def dictGetD (v : JValue) (k : String) (dflt : JValue) : Except Unit JValue :=
  match v with
  | .obj fs => .ok ((fs.lookup k).getD dflt)
  | _ => .error ()

/-- Python `d[k]`: KeyError when the key is missing, TypeError when `d`
is not a dict. -/
def dictIndex (v : JValue) (k : String) : Except Unit JValue :=
  match v with
  | .obj fs =>
    match fs.lookup k with
    | some x => .ok x
    | none => .error ()
  | _ => .error ()

/-- Python `.lower()` needs a string receiver (AttributeError otherwise). -/
def asString : JValue → Except Unit String
  | .str s => .ok s
  | _ => .error ()

/-- Python `str.lower()` on one ASCII character (all metric names and
JSON keys in this repository are ASCII). -/
def lowerChar (c : Char) : Char :=
  if 'A' ≤ c ∧ c ≤ 'Z' then Char.ofNat (c.toNat + 32) else c

/-- Python `str.lower()` (ASCII). -/
def pyLower (s : String) : String :=
  ⟨s.data.map lowerChar⟩

/-- `values[-1].get("total", values[-1].get("average", values[-1].get("maximum",
values[-1].get("sum", 0))))` from `get_metric_value`; the receiver must be
a dict or the chain raises. -/
def latestSampleValue (latest : JValue) : Except Unit JValue :=
  match latest with
  | .obj fs =>
    .ok ((fs.lookup "total").getD
          ((fs.lookup "average").getD
            ((fs.lookup "maximum").getD
              ((fs.lookup "sum").getD (.num 0)))))
  | _ => .error ()

/-- Outcome of one iteration of the `for item in data.get("value", [])`
loop in `get_metric_value`: an exception, a `return latest_value`, or a
fall-through to the next item. -/
inductive ItemStep where
  | err
  | found (v : JValue)
  | skip

/-- Innermost stage of the loop body of `get_metric_value`: the
`if values:` check and the `values[-1]` fallback chain over
`dataV = timeseries_data[0].get("data", [])`. -/
def dataStep (dataV : JValue) : ItemStep :=
  if truthy dataV then
    match dataV with
    | .arr vs =>
      match vs.getLast? with
      | some latest =>
        match latestSampleValue latest with
        | .ok v => .found v
        | .error _ => .err
      | none => .err
    | _ => .err
  else .skip

/-- Middle stage: the `if timeseries_data:` check and the
`timeseries_data[0].get("data", [])` access. -/
def tsStep (ts : JValue) : ItemStep :=
  if truthy ts then
    match ts with
    | .arr (t0 :: _) =>
      match dictGetD t0 "data" (.arr []) with
      | .error _ => .err
      | .ok dataV => dataStep dataV
    | _ => .err
  else .skip

/-- One iteration of the loop body of `get_metric_value` over `item`. -/
def itemStep (metricName : String) (item : JValue) : ItemStep :=
  match dictIndex item "name" with
  | .error _ => .err
  | .ok nameObj =>
    match dictIndex nameObj "value" with
    | .error _ => .err
    | .ok nameVal =>
      match asString nameVal with
      | .error _ => .err
      | .ok s =>
        if pyLower s == pyLower metricName then
          match dictGetD item "timeseries" (.arr []) with
          | .error _ => .err
          | .ok ts => tsStep ts
        else .skip

/-- The loop of `get_metric_value`: first `found` wins, an exception
aborts, falling off the end returns `0`. -/
def findMetricValue (metricName : String) : List JValue → Except Unit JValue
  | [] => .ok (.num 0)
  | item :: rest =>
    match itemStep metricName item with
    | .err => .error ()
    | .found v => .ok v
    | .skip => findMetricValue metricName rest

/-- Body of the `try:` block of `get_metric_value`.  Iterating a
non-list yields no `return` on any item (dict keys and string characters
are not dicts), which we fold into `.error ()`; the caught result is `0`
either way. -/
def get_metric_value_body (metricName : String) (data : JValue) : Except Unit JValue :=
  match dictGetD data "value" (.arr []) with
  | .error _ => .error ()
  | .ok items =>
    match items with
    | .arr xs => findMetricValue metricName xs
    | _ => .error ()

/-- `AzureWebAppExporter.get_metric_value`
(src/sav/webapp_exporter_azure_planname.py lines 79-99): the `except`
clause turns any raised exception into a returned `0`. -/
def get_metric_value (metricName : String) (data : JValue) : JValue :=
  match get_metric_value_body metricName data with
  | .ok v => v
  | .error _ => .num 0

/-! ## Well-formed raw metrics responses

The data model of the spec (§3, §4.3): a raw response is a list of
entries, one per metric name, each carrying a list of time-series, each
an ordered list of samples with up to four aggregation fields. -/

structure MetricSample where
  timeStamp : Option String
  total : Option ℚ
  average : Option ℚ
  maximum : Option ℚ
  sum : Option ℚ
deriving Repr, DecidableEq

structure MetricTimeSeries where
  data : List MetricSample
deriving Repr, DecidableEq

structure MetricEntry where
  name : String
  timeseries : List MetricTimeSeries
deriving Repr, DecidableEq

structure RawResponse where
  value : List MetricEntry
deriving Repr, DecidableEq

/-- Wire form of a sample: each aggregation field is present exactly
when the sample carries it. -/
def encodeSample (s : MetricSample) : JValue :=
  .obj ((match s.timeStamp with | some t => [("timeStamp", JValue.str t)] | none => []) ++
        (match s.total with | some q => [("total", JValue.num q)] | none => []) ++
        (match s.average with | some q => [("average", JValue.num q)] | none => []) ++
        (match s.maximum with | some q => [("maximum", JValue.num q)] | none => []) ++
        (match s.sum with | some q => [("sum", JValue.num q)] | none => []))

def encodeSeries (t : MetricTimeSeries) : JValue :=
  .obj [("data", .arr (t.data.map encodeSample))]

def encodeEntry (e : MetricEntry) : JValue :=
  .obj [("name", .obj [("value", .str e.name)]),
        ("timeseries", .arr (e.timeseries.map encodeSeries))]

def encodeResponse (r : RawResponse) : JValue :=
  .obj [("value", .arr (r.value.map encodeEntry))]

/-- The fallback order total → average → maximum → sum → 0 on a
structured sample. -/
def sampleValue (s : MetricSample) : ℚ :=
  s.total.getD (s.average.getD (s.maximum.getD (s.sum.getD 0)))

/-- The normalizer as C1 words it: the (first) entry whose name matches
case-insensitively decides the result alone — if its time-series list or
its first series' sample list is empty the result is `0`. -/
def extractClaim (m : String) (r : RawResponse) : ℚ :=
  match r.value.find? (fun e => pyLower e.name == pyLower m) with
  | none => 0
  | some e =>
    match e.timeseries with
    | [] => 0
    | t :: _ =>
      match t.data.getLast? with
      | none => 0
      | some s => sampleValue s

/-- What the code does on well-formed responses: a matching entry whose
first time-series has no samples is skipped and the scan continues with
later entries. -/
def extractCode (m : String) : List MetricEntry → ℚ
  | [] => 0
  | e :: rest =>
    if pyLower e.name == pyLower m then
      match e.timeseries with
      | [] => extractCode m rest
      | t :: _ =>
        match t.data.getLast? with
        | none => extractCode m rest
        | some s => sampleValue s
    else extractCode m rest

/-- A response with two entries matching `"requests"` case-insensitively:
the first has an empty time-series list, the second carries a final
sample with `total = 7`. -/
def dupNameResponse : RawResponse :=
  ⟨[⟨"requests", []⟩,
    ⟨"Requests", [⟨[⟨none, some 7, none, none, none⟩]⟩]⟩]⟩

/-! ## Metric-name sanitization (src/webapp_exporter_azure.py) -/

/-- One character of `re.sub(r"[^a-zA-Z0-9_]", "_", name)`: kept exactly
when it lies in `[a-zA-Z0-9_]`. -/
def sanitizeChar (c : Char) : Char :=
  if ('a' ≤ c ∧ c ≤ 'z') ∨ ('A' ≤ c ∧ c ≤ 'Z') ∨ ('0' ≤ c ∧ c ≤ '9') ∨ c = '_' then c
  else '_'

/-- `sanitize_metric_name` (src/webapp_exporter_azure.py lines 83-85). -/
def sanitize_metric_name (name : String) : String :=
  ⟨name.data.map sanitizeChar⟩

/-- The claim's character transform: replace every non-alphanumeric
character with an underscore. -/
def claimReplaceChar (c : Char) : Char :=
  if ('a' ≤ c ∧ c ≤ 'z') ∨ ('A' ≤ c ∧ c ≤ 'Z') ∨ ('0' ≤ c ∧ c ≤ '9') then c
  else '_'

/-- The claim's derivation: lower-case, then replace every
non-alphanumeric character with an underscore. -/
def claimDerivedName (s : String) : String :=
  ⟨(pyLower s).data.map claimReplaceChar⟩

/-- The gauge name built in `AzureWebAppExporter.__init__`
(src/sav/webapp_exporter_azure_planname.py lines 26-35):
`f"azure_webapp_{metric.lower()}"`. -/
def webappGaugeName (metric : String) : String :=
  "azure_webapp_" ++ pyLower metric

/-- The per-metric suffix of the gauge name built in
`initialize_metrics` (src/webapp_exporter_azure.py lines 107-116):
`f"{key}_{metric.lower()}"`. -/
def planMetricSuffix (metric : String) : String :=
  pyLower metric

/-- `metric_groups` of `AzureWebAppExporter.__init__`. -/
def metric_groups (interval : String) : List String :=
  if interval = "PT5M" then
    ["CpuTime", "Requests", "BytesReceived", "BytesSent",
     "Http2xx", "Http3xx", "Http4xx", "Http5xx",
     "MemoryWorkingSet", "AverageMemoryWorkingSet",
     "AverageResponseTime", "HttpResponseTime",
     "IoReadBytesPerSecond", "IoWriteBytesPerSecond",
     "IoReadOperationsPerSecond", "IoWriteOperationsPerSecond",
     "HealthCheckStatus"]
  else if interval = "PT6H" then ["FileSystemUsage"]
  else []

/-- `METRIC_NAMES` of src/webapp_exporter_azure.py. -/
def METRIC_NAMES : List String :=
  ["CpuPercentage", "MemoryPercentage", "DiskQueueLength", "HttpQueueLength",
   "BytesReceived", "BytesSent", "TcpSynSent", "TcpSynReceived",
   "TcpEstablished", "TcpFinWait1", "TcpFinWait2", "TcpClosing",
   "TcpCloseWait", "TcpLastAck", "TcpTimeWait", "SocketInboundAll",
   "SocketOutboundAll", "SocketOutboundEstablished", "SocketOutboundTimeWait",
   "SocketLoopback"]

/-! ## Collection scheduler (src/sav/webapp_exporter_azure_planname.py)

One cycle of `update_metrics` runs `get_azure_metrics(session, config,
interval)` for every configured entry and both intervals; each task
resolves the plan name, fetches the metrics document per web app and
commits one gauge value per metric name.  The concurrent tasks write
disjoint gauge label sets, so the cycle is modelled as their sequential
composition; the requests a cycle issues are modelled separately as an
event list. -/

structure WebAppConfig where
  tenant_id : String
  client_id : String
  client_secret : String
  subscription_id : String
  resource_group_name : String
  web_app_names : List String
deriving Repr, DecidableEq

/-- Iteration order of `self.metric_groups.keys()`. -/
def intervalList : List String := ["PT5M", "PT6H"]

/-- The keys of `self.metrics`: one gauge per metric of either group. -/
def allMetricNames : List String := metric_groups "PT5M" ++ metric_groups "PT6H"

/-- One HTTP GET as the code observes it: a 200 with a parsed body, a
non-success status, or a raised transport exception. -/
inductive HttpResult (α : Type) where
  | ok (body : α)
  | httpError (status : ℕ)
  | exn
deriving Repr, DecidableEq

def HttpResult.isOk {α : Type} : HttpResult α → Bool
  | .ok _ => true
  | _ => false

/-- Parsed body of the site-descriptor endpoint, as read by
`data.get("properties", {}).get("serverFarmId", None)`. -/
structure SiteProperties where
  serverFarmId : Option String
deriving Repr, DecidableEq

/-- The world one collection cycle runs against: what the token
exchange, the plan-resolution GET and the metrics GET return for each
configured entry and web app. -/
structure Env where
  tokenFor : WebAppConfig → Option String
  planResp : WebAppConfig → String → HttpResult SiteProperties
  metricsResp : WebAppConfig → String → String → HttpResult RawResponse

/-- Python `s.split("/")` on the character list (the pattern is a single
character, so splitting is per-character; the result is never empty). -/
def splitOnSlash : List Char → List (List Char)
  | [] => [[]]
  | c :: rest =>
    let r := splitOnSlash rest
    if c = '/' then [] :: r
    else
      match r with
      | h :: t => (c :: h) :: t
      | [] => [[c]]

/-- `server_farm_id.split("/")[-1]`. -/
def lastPathSegment (s : String) : String :=
  String.mk ((splitOnSlash s.data).getLastD [])

/-- `AzureWebAppExporter.get_webapp_plan_name` (lines 59-77): on HTTP
200 with a truthy `serverFarmId` the last path segment, otherwise the
sentinel; every exception is caught inside the function. -/
def get_webapp_plan_name (env : Env) (c : WebAppConfig) (w : String) : String :=
  match env.planResp c w with
  | .ok props =>
    match props.serverFarmId with
    | some sfid => if sfid ≠ "" then lastPathSegment sfid else "unknown_plan"
    | none => "unknown_plan"
  | .httpError _ => "unknown_plan"
  | .exn => "unknown_plan"

/-- A gauge cell: `self.metrics[metric].labels(resource_group_name,
web_app_name, plan_name)`. -/
structure RegKey where
  metric : String
  resource_group_name : String
  web_app_name : String
  plan_name : String
deriving Repr, DecidableEq

/-- The Prometheus registry restricted to the gauges this exporter
writes: last value set per labelled cell, absent if never set. -/
def Registry : Type := RegKey → Option JValue

def Registry.set (reg : Registry) (k : RegKey) (v : JValue) : Registry :=
  fun q => if q = k then some v else reg q

/-- The registry never written. -/
def emptyRegistry : Registry := fun _ => none

/-- The commit loop over `metrics[web_app_name].items()`: each metric of
the interval's group is parsed from the fetched document and written to
its gauge (`self.metrics.get(metric_name)` guards against unknown
names). -/
def commitMetrics (reg : Registry) (rg w plan : String) (names : List String)
    (d : JValue) : Registry :=
  names.foldl
    (fun r m =>
      if allMetricNames.contains m then
        r.set ⟨m, rg, w, plan⟩ (get_metric_value m d)
      else r)
    reg

/-- Registry effect of one web app inside the `for web_app_name in
web_app_names:` loop of `get_azure_metrics`: on HTTP 200 the commit
loop runs, on a non-200 status or an exception nothing is written. -/
def processWebAppReg (env : Env) (c : WebAppConfig) (itv : String)
    (reg : Registry) (w : String) : Registry :=
  match env.metricsResp c w itv with
  | .ok data =>
    commitMetrics reg c.resource_group_name w (get_webapp_plan_name env c w)
      (metric_groups itv) (encodeResponse data)
  | .httpError _ => reg
  | .exn => reg

/-- Registry effect of `get_azure_metrics(session, web_app_config,
interval)`: nothing on token failure, else the per-web-app loop. -/
def get_azure_metrics_reg (env : Env) (c : WebAppConfig) (itv : String)
    (reg : Registry) : Registry :=
  match env.tokenFor c with
  | none => reg
  | some _ => c.web_app_names.foldl (processWebAppReg env c itv) reg

/-- Registry effect of both interval tasks of one configured entry. -/
def runConfigReg (env : Env) (c : WebAppConfig) (reg : Registry) : Registry :=
  intervalList.foldl (fun r itv => get_azure_metrics_reg env c itv r) reg

/-- Registry effect of one full cycle of `update_metrics`. -/
def runCycleReg (cfgs : List WebAppConfig) (env : Env) (reg : Registry) : Registry :=
  cfgs.foldl (fun r c => runConfigReg env c r) reg

/-- A network request issued during a cycle. -/
inductive FetchEvent where
  | tokenRequest (tenant client : String)
  | planFetch (sub rg w : String)
  | metricsFetch (sub rg w itv : String)
deriving Repr, DecidableEq

/-- The requests issued by `get_azure_metrics`: the token exchange, then
— if a token was obtained — one plan-resolution GET and one metrics GET
per configured web app, regardless of any response's outcome. -/
def get_azure_metrics_events (env : Env) (c : WebAppConfig) (itv : String) :
    List FetchEvent :=
  .tokenRequest c.tenant_id c.client_id ::
  (match env.tokenFor c with
   | none => []
   | some _ =>
     c.web_app_names.flatMap (fun w =>
       [.planFetch c.subscription_id c.resource_group_name w,
        .metricsFetch c.subscription_id c.resource_group_name w itv]))

/-- The requests issued by one full cycle of `update_metrics`.  A cycle
is a function of the configuration and the present environment only: no
registry content and no previous cycle's outcome enters. -/
def runCycleEvents (cfgs : List WebAppConfig) (env : Env) : List FetchEvent :=
  cfgs.flatMap (fun c => intervalList.flatMap (fun itv => get_azure_metrics_events env c itv))

/-- Concrete two-app configuration used by the witnesses. -/
def cexConfig : WebAppConfig :=
  { tenant_id := "t", client_id := "cl", client_secret := "s",
    subscription_id := "sub", resource_group_name := "rg",
    web_app_names := ["app-ok", "app-fail"] }

/-- Concrete metrics document: one `CpuTime` series whose last sample
has `total = 5`. -/
def cexResponse : RawResponse :=
  ⟨[⟨"CpuTime", [⟨[⟨some "ts", some 5, none, none, none⟩]⟩]⟩]⟩

/-- World in which `app-ok`'s metrics GET succeeds, `app-fail`'s returns
HTTP 429, and every plan-resolution GET raises. -/
def cexEnv : Env :=
  { tokenFor := fun _ => some "token",
    planResp := fun _ _ => .exn,
    metricsResp := fun _ w _ => if w = "app-ok" then .ok cexResponse else .httpError 429 }

/-- World in which every metrics GET returns HTTP 429. -/
def cexEnvAllFail : Env :=
  { tokenFor := fun _ => some "token",
    planResp := fun _ _ => .exn,
    metricsResp := fun _ _ _ => .httpError 429 }

/-- Registry holding one previously committed value. -/
def cexRegistryPrev : Registry :=
  fun k => if k = ⟨"CpuTime", "rg", "app-fail", "unknown_plan"⟩
           then some (.num 42) else none

/-! ## Cycle timing of `update_metrics` -/

inductive SchedPhase where
  | fetching
  | sleeping
deriving Repr, DecidableEq

structure SchedTime where
  cycle : ℕ
  phase : SchedPhase
  clock : ℕ
deriving Repr, DecidableEq

/-- One transition of the `while True:` loop of `update_metrics`
(src/sav/webapp_exporter_azure_planname.py lines 157-168, likewise the
`while True: update_metrics(config); time.sleep(60)` loop of
src/webapp_exporter_azure.py lines 161-163): the gathered fetches of
cycle `n` take `dur n` time units, then `asyncio.sleep(60)` runs
unconditionally. -/
def schedStep (dur : ℕ → ℕ) (s : SchedTime) : SchedTime :=
  match s.phase with
  | .fetching => ⟨s.cycle, .sleeping, s.clock + dur s.cycle⟩
  | .sleeping => ⟨s.cycle + 1, .fetching, s.clock + 60⟩

def schedAt (dur : ℕ → ℕ) : ℕ → SchedTime
  | 0 => ⟨0, .fetching, 0⟩
  | n + 1 => schedStep dur (schedAt dur n)

/-- Closed form of the loop's cycle start times: each start is the
previous start plus the previous cycle's duration plus the fixed
60-unit sleep. -/
def cycleStart (dur : ℕ → ℕ) : ℕ → ℕ
  | 0 => 0
  | n + 1 => cycleStart dur n + dur n + 60

/-- The schedule C5 claims: starts a fixed 60 apart, and an overrunning
cycle makes the next one start immediately at its end. -/
def claimCycleStart (dur : ℕ → ℕ) : ℕ → ℕ
  | 0 => 0
  | n + 1 => claimCycleStart dur n + max 60 (dur n)

/-! ## Configuration loading -/

/-- What opening and JSON-decoding the configuration file can yield. -/
inductive ConfigSource where
  | absent
  | malformed (raw : String)
  | wellFormed (cfgs : List WebAppConfig)

/-- `load_webapp_configs` (src/sav/webapp_metrics.py lines 20-26,
identical in the sav exporters): `FileNotFoundError` and
`JSONDecodeError` are caught, an error is printed and `[]` returned. -/
def load_webapp_configs : ConfigSource → List WebAppConfig
  | .absent => []
  | .malformed _ => []
  | .wellFormed cfgs => cfgs

inductive PyError where
  | fileNotFound
  | jsonDecodeError
deriving Repr, DecidableEq

/-- `load_config` (src/webapp_exporter_azure.py lines 27-30): no
handler — the exception propagates to `__main__` and the process
crashes. -/
def load_config : ConfigSource → Except PyError (List WebAppConfig)
  | .absent => .error .fileNotFound
  | .malformed _ => .error .jsonDecodeError
  | .wellFormed cfgs => .ok cfgs

def ConfigSource.isBad : ConfigSource → Prop
  | .absent => True
  | .malformed _ => True
  | .wellFormed _ => False

/-! ## Process supervisor (src/sav/main_exporter.py.py) -/

/-- Scheduler worker states (spec §4.4); a process started from scratch
by `subprocess.Popen` begins at the top of its script, i.e. `Idle`. -/
inductive SchedState where
  | Idle
  | FetchingCycle
  | Committing
  | Sleeping
deriving Repr, DecidableEq

structure WorkerProc where
  incarnation : ℕ
  st : SchedState
deriving Repr, DecidableEq

/-- The replacement process started by `subprocess.Popen(...)`. -/
def freshWorker (i : ℕ) : WorkerProc := ⟨i, .Idle⟩

/-- `f"{name.lower().replace(' ', '_')}.py"` — the script
`monitor_subprocess` restarts for a worker name (`.replace` with a
one-character pattern is a per-character map). -/
def worker_script (name : String) : String :=
  String.mk ((pyLower name).data.map (fun c => if c = ' ' then '_' else c)) ++ ".py"

/-- `monitor_subprocess` (lines 24-30) observed at its polls: the loop
checks `process.poll()` on entry and then every `asyncio.sleep(10)`, so
poll `k` happens at time `10 * k`.  With the monitored worker
terminating at time `d`, this gives the worker in place after poll `k`:
still the original before the first poll at or after `d`, the freshly
started replacement from that poll on. -/
def monitor_poll (d : ℕ) (w0 : WorkerProc) : ℕ → WorkerProc
  | 0 => if d ≤ 10 * 0 then freshWorker (w0.incarnation + 1) else w0
  | k + 1 =>
    let w := monitor_poll d w0 k
    if w = w0 ∧ d ≤ 10 * (k + 1) then freshWorker (w0.incarnation + 1) else w

/-! ## Credential cache

The repository's `get_access_token` functions (src/sav/webapp_metrics.py
lines 28-35, src/sav/webapp_exporter_azure_planname.py lines 46-57) wrap
`azure.identity.ClientSecretCredential.get_token` in a
`try/except` returning `None` on failure; the token cache itself lives
inside that external library and is not part of the sources, so the
cache is modelled from the specification (§4.1). -/

structure Token where
  value : String
  expiry_time : ℕ
  identity_key : String
deriving Repr, DecidableEq

structure CredCache where
  cache : String → Option Token

inductive TokenResult where
  | ok (t : Token)
  | authFailure
deriving Repr, DecidableEq

/-- Modelled from the spec: the token-refresh path of §4.1 — a
successful exchange is stored under the identity key and returned, a
failed one returns `authFailure` and leaves the cache untouched. -/
def refreshToken (exchange : Option Token) (st : CredCache) (idKey : String) :
    TokenResult × CredCache × Bool :=
  match exchange with
  | some fresh =>
    (.ok fresh, ⟨fun q => if q = idKey then some fresh else st.cache q⟩, true)
  | none => (.authFailure, st, true)

/-- Modelled from the spec: the Credential Cache contract of §4.1 —
missing from src/, realized there by the external
`azure.identity.ClientSecretCredential`.  `exchange` is what a
token-exchange network call would return; the third component of the
result records whether such a call was performed.  On a cache hit with
more than `margin` time left the cached token is returned with no call;
otherwise the exchange runs. -/
def get_token (margin now : ℕ) (exchange : Option Token) (st : CredCache)
    (idKey : String) : TokenResult × CredCache × Bool :=
  match st.cache idKey with
  | some t =>
    if now + margin < t.expiry_time then (.ok t, st, false)
    else refreshToken exchange st idKey
  | none => refreshToken exchange st idKey

def cexToken : Token := ⟨"tokval", 200, "id1"⟩

def cexCredCache : CredCache :=
  ⟨fun q => if q = "id1" then some cexToken else none⟩

def emptyCredCache : CredCache := ⟨fun _ => none⟩

/-! ## Theorems -/

theorem latestSampleValue_encode (s : MetricSample) :
    latestSampleValue (encodeSample s) = .ok (.num (sampleValue s)) := by
  obtain ⟨ts, t, a, m, su⟩ := s
  cases ts <;> cases t <;> cases a <;> cases m <;> cases su <;> rfl

theorem getLast?_map_encodeSample (l : List MetricSample) :
    (l.map encodeSample).getLast? = l.getLast?.map encodeSample := by
  induction l with
  | nil => rfl
  | cons x xs ih =>
    cases xs with
    | nil => rfl
    | cons y ys => simpa using ih

theorem dataStep_encode (l : List MetricSample) :
    dataStep (.arr (l.map encodeSample)) =
      match l.getLast? with
      | none => .skip
      | some s => .found (.num (sampleValue s)) := by
  cases l with
  | nil => rfl
  | cons s ss =>
    show (match ((s :: ss).map encodeSample).getLast? with
          | some latest =>
            (match latestSampleValue latest with
             | .ok v => ItemStep.found v
             | .error _ => ItemStep.err)
          | none => ItemStep.err) = _
    rw [getLast?_map_encodeSample]
    cases hl : (s :: ss).getLast? with
    | none => simp at hl
    | some x =>
      show (match latestSampleValue (encodeSample x) with
            | .ok v => ItemStep.found v
            | .error _ => ItemStep.err) = ItemStep.found (.num (sampleValue x))
      rw [latestSampleValue_encode]

theorem itemStep_encode (m : String) (e : MetricEntry) :
    itemStep m (encodeEntry e) =
      if pyLower e.name == pyLower m then
        match e.timeseries with
        | [] => .skip
        | t :: _ =>
          match t.data.getLast? with
          | none => .skip
          | some s => .found (.num (sampleValue s))
      else .skip := by
  rw [show itemStep m (encodeEntry e) =
      (if pyLower e.name == pyLower m then
        tsStep (.arr (e.timeseries.map encodeSeries)) else .skip) from rfl]
  by_cases h : (pyLower e.name == pyLower m) = true
  · rw [if_pos h, if_pos h]
    cases e.timeseries with
    | nil => rfl
    | cons t rest =>
      show dataStep (.arr (t.data.map encodeSample)) = _
      exact dataStep_encode t.data
  · rw [if_neg h, if_neg h]

theorem extractCode_cons (m : String) (e : MetricEntry) (rest : List MetricEntry) :
    extractCode m (e :: rest) =
      if pyLower e.name == pyLower m then
        match e.timeseries with
        | [] => extractCode m rest
        | t :: _ =>
          match t.data.getLast? with
          | none => extractCode m rest
          | some s => sampleValue s
      else extractCode m rest := rfl

theorem findMetricValue_encode (m : String) (es : List MetricEntry) :
    findMetricValue m (es.map encodeEntry) = .ok (.num (extractCode m es)) := by
  induction es with
  | nil => rfl
  | cons e rest ih =>
    show (match itemStep m (encodeEntry e) with
          | .err => Except.error ()
          | .found v => Except.ok v
          | .skip => findMetricValue m (rest.map encodeEntry)) =
         Except.ok (.num (extractCode m (e :: rest)))
    rw [itemStep_encode, extractCode_cons]
    by_cases h : (pyLower e.name == pyLower m) = true
    · rw [if_pos h, if_pos h]
      cases e.timeseries with
      | nil => exact ih
      | cons t more =>
        show (match (match t.data.getLast? with
                     | none => ItemStep.skip
                     | some s => ItemStep.found (JValue.num (sampleValue s))) with
              | ItemStep.err => Except.error ()
              | ItemStep.found v => Except.ok v
              | ItemStep.skip => findMetricValue m (rest.map encodeEntry)) =
             Except.ok (JValue.num (match t.data.getLast? with
                    | none => extractCode m rest
                    | some s => sampleValue s))
        cases t.data.getLast? with
        | none => exact ih
        | some s => rfl
    · rw [if_neg h, if_neg h]
      exact ih

/-- On every well-formed raw response, `get_metric_value` computes
`extractCode`. -/
theorem get_metric_value_encode (m : String) (r : RawResponse) :
    get_metric_value m (encodeResponse r) = .num (extractCode m r.value) := by
  rw [show get_metric_value m (encodeResponse r) =
      (match findMetricValue m (r.value.map encodeEntry) with
       | .ok v => v
       | .error _ => .num 0) from rfl]
  rw [findMetricValue_encode]

/-- C1 counterexample: the claim demands that the matching entry alone
decides the result (`0` here, since the first matching entry has an
empty time-series list), but `get_metric_value` keeps scanning and
returns `7` from the second matching entry. -/
theorem C1_extract_counterexample :
    get_metric_value "requests" (encodeResponse dupNameResponse) ≠
      JValue.num (extractClaim "requests" dupNameResponse) := by
  intro h
  have h1 : get_metric_value "requests" (encodeResponse dupNameResponse) = JValue.num 7 := rfl
  have h2 : extractClaim "requests" dupNameResponse = 0 := rfl
  rw [h1, h2] at h
  have h3 := JValue.num.inj h
  norm_num at h3

/-- C1 (amended): on every well-formed raw response, `get_metric_value`
returns, for the first entry whose name matches case-insensitively and
whose first time-series has a nonempty sample list, the last sample's
first present field in the order total → average → maximum → sum;
matching entries with an empty time-series list or an empty first-series
sample list are skipped and the scan continues; if no entry qualifies
the result is 0, with no error raised. -/
theorem C1_extract_amended (m : String) (r : RawResponse) :
    get_metric_value m (encodeResponse r) = .num (extractCode m r.value) :=
  get_metric_value_encode m r

/-- C10: `get_metric_value` is total on arbitrary JSON input — it either
returns the value produced by the body of its `try:` block, or, whenever
that body raises (missing `name` field, non-list `timeseries`, samples
that are not mappings, ...), it returns `0`.  The three conjuncts at the
end evaluate it on concretely malformed shapes. -/
theorem C10_get_metric_value_total :
    (∀ (name : String) (data : JValue), ∃ v, get_metric_value name data = v ∧
      (get_metric_value_body name data = .ok v ∨
       (get_metric_value_body name data = .error () ∧ v = .num 0))) ∧
    get_metric_value "x" (.obj [("value", .arr [.obj []])]) = .num 0 ∧
    get_metric_value "x" (.obj [("value", .arr
      [.obj [("name", .obj [("value", .str "x")]), ("timeseries", .num 3)]])]) = .num 0 ∧
    get_metric_value "x" (.obj [("value", .arr
      [.obj [("name", .obj [("value", .str "x")]),
             ("timeseries", .arr [.obj [("data", .arr [.num 1])]])]])]) = .num 0 := by
  refine ⟨?_, rfl, rfl, rfl⟩
  intro name data
  cases h : get_metric_value_body name data with
  | error e =>
    cases e
    refine ⟨.num 0, ?_, Or.inr ⟨rfl, rfl⟩⟩
    unfold get_metric_value
    rw [h]
  | ok v =>
    refine ⟨v, ?_, Or.inl rfl⟩
    unfold get_metric_value
    rw [h]

theorem sanitizeChar_eq_claimReplaceChar (c : Char) :
    sanitizeChar c = claimReplaceChar c := by
  unfold sanitizeChar claimReplaceChar
  by_cases h2 : ('a' ≤ c ∧ c ≤ 'z') ∨ ('A' ≤ c ∧ c ≤ 'Z') ∨ ('0' ≤ c ∧ c ≤ '9')
  · rw [if_pos (by tauto), if_pos h2]
  · by_cases h1 : c = '_'
    · subst h1; rfl
    · rw [if_neg (by tauto), if_neg h2]

/-- C8: `sanitize_metric_name` is exactly "replace every
non-alphanumeric character with `_`" (an underscore is untouched by
both), and for every source metric identifier in the repository the
exposed gauge name carries the identifier lower-cased with every
non-alphanumeric character replaced by `_`. -/
theorem C8_metric_name_derivation :
    (∀ s : String, sanitize_metric_name s = String.mk (s.data.map claimReplaceChar)) ∧
    (∀ m ∈ metric_groups "PT5M" ++ metric_groups "PT6H" ++ METRIC_NAMES,
      webappGaugeName m = "azure_webapp_" ++ claimDerivedName m ∧
      planMetricSuffix m = claimDerivedName m) := by
  constructor
  · intro s
    unfold sanitize_metric_name
    have : sanitizeChar = claimReplaceChar := funext sanitizeChar_eq_claimReplaceChar
    rw [this]
  · intro m hm
    fin_cases hm <;> exact ⟨rfl, rfl⟩

/-- Witness for C8 at the concrete identifier `"CpuTime"`. -/
theorem C8_metric_name_derivation_witness :
    webappGaugeName "CpuTime" = "azure_webapp_" ++ claimDerivedName "CpuTime" :=
  (C8_metric_name_derivation.2 "CpuTime" (by decide)).1

theorem Registry.set_apply (reg : Registry) (k : RegKey) (v : JValue) (q : RegKey) :
    reg.set k v q = if q = k then some v else reg q := rfl

theorem commitMetrics_apply (rg w plan : String) (names : List String) (d : JValue)
    (reg : Registry) (k : RegKey) :
    commitMetrics reg rg w plan names d k =
      if k.resource_group_name = rg ∧ k.web_app_name = w ∧ k.plan_name = plan ∧
         k.metric ∈ names ∧ allMetricNames.contains k.metric = true
      then some (get_metric_value k.metric d)
      else reg k := by
  induction names generalizing reg with
  | nil => simp [commitMetrics]
  | cons m rest ih =>
    show commitMetrics
        (if allMetricNames.contains m then
          Registry.set reg ⟨m, rg, w, plan⟩ (get_metric_value m d)
         else reg) rg w plan rest d k = _
    rw [ih]
    by_cases hrest : k.resource_group_name = rg ∧ k.web_app_name = w ∧ k.plan_name = plan ∧
        k.metric ∈ rest ∧ allMetricNames.contains k.metric = true
    · rw [if_pos hrest, if_pos ⟨hrest.1, hrest.2.1, hrest.2.2.1,
        List.mem_cons_of_mem m hrest.2.2.2.1, hrest.2.2.2.2⟩]
    · rw [if_neg hrest]
      by_cases hk : k = ⟨m, rg, w, plan⟩
      · subst hk
        by_cases hall : allMetricNames.contains m = true
        · rw [if_pos hall, Registry.set_apply, if_pos rfl,
              if_pos ⟨rfl, rfl, rfl, List.mem_cons_self m rest, hall⟩]
        · rw [if_neg hall]
          rw [if_neg (by rintro ⟨-, -, -, -, hc⟩; exact hall hc)]
      · have hstep : (if allMetricNames.contains m then
              Registry.set reg ⟨m, rg, w, plan⟩ (get_metric_value m d) else reg) k = reg k := by
          by_cases hall : allMetricNames.contains m = true
          · rw [if_pos hall, Registry.set_apply, if_neg hk]
          · rw [if_neg hall]
        rw [hstep]
        rw [if_neg (by
          rintro ⟨h1, h2, h3, h4, h5⟩
          rcases List.mem_cons.mp h4 with h6 | h6
          · apply hk
            obtain ⟨km, krg, kw, kp⟩ := k
            simp only at h1 h2 h3 h6
            simp [h1, h2, h3, h6]
          · exact hrest ⟨h1, h2, h3, h6, h5⟩)]

theorem processWebAppReg_frame (env : Env) (c : WebAppConfig) (itv : String)
    (reg : Registry) (w : String) (k : RegKey)
    (h : (env.metricsResp c w itv).isOk = false ∨
         k.resource_group_name ≠ c.resource_group_name ∨ k.web_app_name ≠ w ∨
         k.metric ∉ metric_groups itv) :
    processWebAppReg env c itv reg w k = reg k := by
  unfold processWebAppReg
  cases hres : env.metricsResp c w itv with
  | httpError s => rfl
  | exn => rfl
  | ok data =>
    show commitMetrics reg c.resource_group_name w (get_webapp_plan_name env c w)
        (metric_groups itv) (encodeResponse data) k = reg k
    rw [commitMetrics_apply]
    rw [if_neg (by
      rintro ⟨h1, h2, h3, h4, h5⟩
      rcases h with h | h | h | h
      · rw [hres] at h; simp [HttpResult.isOk] at h
      · exact h h1
      · exact h h2
      · exact h h4)]

theorem processWebAppReg_commit (env : Env) (c : WebAppConfig) (itv : String)
    (reg : Registry) (w : String) (data : RawResponse) (m : String)
    (hok : env.metricsResp c w itv = .ok data)
    (hm : m ∈ metric_groups itv)
    (hall : allMetricNames.contains m = true) :
    processWebAppReg env c itv reg w
      ⟨m, c.resource_group_name, w, get_webapp_plan_name env c w⟩ =
      some (get_metric_value m (encodeResponse data)) := by
  unfold processWebAppReg
  rw [hok]
  show commitMetrics reg c.resource_group_name w (get_webapp_plan_name env c w)
      (metric_groups itv) (encodeResponse data)
      ⟨m, c.resource_group_name, w, get_webapp_plan_name env c w⟩ =
    some (get_metric_value m (encodeResponse data))
  rw [commitMetrics_apply, if_pos ⟨rfl, rfl, rfl, hm, hall⟩]

theorem foldl_processWebAppReg_frame (env : Env) (c : WebAppConfig) (itv : String)
    (ws : List String) (k : RegKey) :
    (∀ w ∈ ws, (env.metricsResp c w itv).isOk = false ∨
        k.resource_group_name ≠ c.resource_group_name ∨ k.web_app_name ≠ w ∨
        k.metric ∉ metric_groups itv) →
    ∀ reg : Registry, (ws.foldl (processWebAppReg env c itv) reg) k = reg k := by
  induction ws with
  | nil => intro _ reg; rfl
  | cons w0 rest ih =>
    intro h reg
    show (rest.foldl (processWebAppReg env c itv) (processWebAppReg env c itv reg w0)) k = reg k
    rw [ih (fun w hw => h w (List.mem_cons_of_mem w0 hw)) _]
    exact processWebAppReg_frame env c itv reg w0 k (h w0 (List.mem_cons_self w0 rest))

theorem foldl_processWebAppReg_commit (env : Env) (c : WebAppConfig) (itv : String)
    (ws : List String) (w : String) (data : RawResponse) (m : String)
    (hok : env.metricsResp c w itv = .ok data)
    (hm : m ∈ metric_groups itv) (hall : allMetricNames.contains m = true) :
    w ∈ ws → ws.Nodup →
    ∀ reg, (ws.foldl (processWebAppReg env c itv) reg)
      ⟨m, c.resource_group_name, w, get_webapp_plan_name env c w⟩ =
      some (get_metric_value m (encodeResponse data)) := by
  induction ws with
  | nil => intro hw; cases hw
  | cons w0 rest ih =>
    intro hw hnd reg
    show (rest.foldl (processWebAppReg env c itv) (processWebAppReg env c itv reg w0)) _ = _
    rcases List.mem_cons.mp hw with h0 | h0
    · subst h0
      have hnotin : w ∉ rest := (List.nodup_cons.mp hnd).1
      rw [foldl_processWebAppReg_frame env c itv rest _ (fun w' hw' => by
        right; right; left
        show w ≠ w'
        exact fun he => hnotin (he ▸ hw')) _]
      exact processWebAppReg_commit env c itv reg w data m hok hm hall
    · exact ih h0 (List.nodup_cons.mp hnd).2 _

theorem get_azure_metrics_reg_frame (env : Env) (c : WebAppConfig) (itv : String) (k : RegKey)
    (h : env.tokenFor c = none ∨ ∀ w ∈ c.web_app_names,
        (env.metricsResp c w itv).isOk = false ∨
        k.resource_group_name ≠ c.resource_group_name ∨ k.web_app_name ≠ w ∨
        k.metric ∉ metric_groups itv) :
    ∀ reg, get_azure_metrics_reg env c itv reg k = reg k := by
  intro reg
  unfold get_azure_metrics_reg
  cases htok : env.tokenFor c with
  | none => rfl
  | some tok =>
    rcases h with h | h
    · rw [htok] at h; cases h
    · exact foldl_processWebAppReg_frame env c itv c.web_app_names k h reg

theorem get_azure_metrics_reg_commit (env : Env) (c : WebAppConfig) (itv : String)
    (w : String) (data : RawResponse) (m : String)
    (htok : (env.tokenFor c).isSome = true)
    (hnd : c.web_app_names.Nodup)
    (hw : w ∈ c.web_app_names)
    (hok : env.metricsResp c w itv = .ok data)
    (hm : m ∈ metric_groups itv) (hall : allMetricNames.contains m = true) :
    ∀ reg, get_azure_metrics_reg env c itv reg
      ⟨m, c.resource_group_name, w, get_webapp_plan_name env c w⟩ =
      some (get_metric_value m (encodeResponse data)) := by
  intro reg
  unfold get_azure_metrics_reg
  cases htok2 : env.tokenFor c with
  | none => rw [htok2] at htok; simp at htok
  | some tok =>
    exact foldl_processWebAppReg_commit env c itv c.web_app_names w data m hok hm hall hw hnd reg

theorem metric_groups_PT5M_not_PT6H :
    ∀ m ∈ metric_groups "PT5M", m ∉ metric_groups "PT6H" := by decide

theorem metric_groups_PT6H_not_PT5M :
    ∀ m ∈ metric_groups "PT6H", m ∉ metric_groups "PT5M" := by decide

theorem mem_allMetricNames (itv m : String)
    (hitv : itv ∈ intervalList) (hm : m ∈ metric_groups itv) :
    allMetricNames.contains m = true := by
  have hmem : m ∈ allMetricNames := by
    unfold allMetricNames
    rw [List.mem_append]
    rcases (by simpa [intervalList] using hitv : itv = "PT5M" ∨ itv = "PT6H") with rfl | rfl
    · exact Or.inl hm
    · exact Or.inr hm
  exact List.elem_eq_true_of_mem hmem

theorem runConfigReg_frame (env : Env) (c : WebAppConfig) (k : RegKey)
    (h : ∀ itv ∈ intervalList, env.tokenFor c = none ∨ ∀ w ∈ c.web_app_names,
        (env.metricsResp c w itv).isOk = false ∨
        k.resource_group_name ≠ c.resource_group_name ∨ k.web_app_name ≠ w ∨
        k.metric ∉ metric_groups itv) :
    ∀ reg, runConfigReg env c reg k = reg k := by
  intro reg
  show get_azure_metrics_reg env c "PT6H" (get_azure_metrics_reg env c "PT5M" reg) k = reg k
  rw [get_azure_metrics_reg_frame env c "PT6H" k (h "PT6H" (by simp [intervalList])) _,
      get_azure_metrics_reg_frame env c "PT5M" k (h "PT5M" (by simp [intervalList])) _]

theorem runConfigReg_commit (env : Env) (c : WebAppConfig) (itv : String)
    (w : String) (data : RawResponse) (m : String)
    (hitv : itv ∈ intervalList)
    (htok : (env.tokenFor c).isSome = true)
    (hnd : c.web_app_names.Nodup)
    (hw : w ∈ c.web_app_names)
    (hok : env.metricsResp c w itv = .ok data)
    (hm : m ∈ metric_groups itv) :
    ∀ reg, runConfigReg env c reg
      ⟨m, c.resource_group_name, w, get_webapp_plan_name env c w⟩ =
      some (get_metric_value m (encodeResponse data)) := by
  intro reg
  have hall := mem_allMetricNames itv m hitv hm
  rcases (by simpa [intervalList] using hitv : itv = "PT5M" ∨ itv = "PT6H") with rfl | rfl
  · show get_azure_metrics_reg env c "PT6H" (get_azure_metrics_reg env c "PT5M" reg) _ = _
    rw [get_azure_metrics_reg_frame env c "PT6H" _ (Or.inr (fun w' hw' => by
      right; right; right
      show m ∉ metric_groups "PT6H"
      exact metric_groups_PT5M_not_PT6H m hm)) _]
    exact get_azure_metrics_reg_commit env c "PT5M" w data m htok hnd hw hok hm hall reg
  · show get_azure_metrics_reg env c "PT6H" (get_azure_metrics_reg env c "PT5M" reg) _ = _
    exact get_azure_metrics_reg_commit env c "PT6H" w data m htok hnd hw hok hm hall _

theorem foldl_runConfigReg_preserve (env : Env) (cfgs : List WebAppConfig)
    (k : RegKey) (v : JValue) :
    (∀ c' ∈ cfgs, (∀ r : Registry, runConfigReg env c' r k = r k) ∨
                  (∀ r : Registry, runConfigReg env c' r k = some v)) →
    ∀ reg : Registry, reg k = some v →
      (cfgs.foldl (fun r c => runConfigReg env c r) reg) k = some v := by
  induction cfgs with
  | nil => intro _ reg hreg; exact hreg
  | cons c0 rest ih =>
    intro h reg hreg
    show (rest.foldl (fun r c => runConfigReg env c r) (runConfigReg env c0 reg)) k = some v
    refine ih (fun c' hc' => h c' (List.mem_cons_of_mem c0 hc')) _ ?_
    rcases h c0 (List.mem_cons_self c0 rest) with h0 | h0
    · rw [h0 reg]; exact hreg
    · exact h0 reg

theorem runCycleReg_commit (cfgs : List WebAppConfig) (env : Env) (reg : Registry)
    (c : WebAppConfig) (itv w : String) (data : RawResponse) (m : String)
    (hc : c ∈ cfgs)
    (hdisj : ∀ c' ∈ cfgs, c' = c ∨ c'.resource_group_name ≠ c.resource_group_name ∨
             w ∉ c'.web_app_names)
    (hitv : itv ∈ intervalList)
    (htok : (env.tokenFor c).isSome = true)
    (hnd : c.web_app_names.Nodup)
    (hw : w ∈ c.web_app_names)
    (hok : env.metricsResp c w itv = .ok data)
    (hm : m ∈ metric_groups itv) :
    runCycleReg cfgs env reg
      ⟨m, c.resource_group_name, w, get_webapp_plan_name env c w⟩ =
      some (get_metric_value m (encodeResponse data)) := by
  obtain ⟨pre, post, rfl⟩ := List.append_of_mem hc
  unfold runCycleReg
  rw [List.foldl_append]
  show (post.foldl (fun r c' => runConfigReg env c' r)
      (runConfigReg env c (List.foldl (fun r c' => runConfigReg env c' r) reg pre))) _ = _
  refine foldl_runConfigReg_preserve env post _ _ ?_ _ ?_
  · intro c' hc'
    rcases hdisj c' (by simp [List.mem_append, hc']) with h | h | h
    · subst h
      right
      intro r
      exact runConfigReg_commit env c' itv w data m hitv htok hnd hw hok hm r
    · left
      intro r
      refine runConfigReg_frame env c' _ (fun itv' _ => Or.inr (fun w' _ => ?_)) r
      right; left
      show c.resource_group_name ≠ c'.resource_group_name
      exact fun he => h (he ▸ rfl)
    · left
      intro r
      refine runConfigReg_frame env c' _ (fun itv' _ => Or.inr (fun w' hw' => ?_)) r
      right; right; left
      show w ≠ w'
      exact fun he => h (he ▸ hw')
  · exact runConfigReg_commit env c itv w data m hitv htok hnd hw hok hm _

theorem runCycleReg_frame (cfgs : List WebAppConfig) (env : Env) (k : RegKey) :
    (∀ c ∈ cfgs, ∀ itv ∈ intervalList, env.tokenFor c = none ∨ ∀ w ∈ c.web_app_names,
        (env.metricsResp c w itv).isOk = false ∨
        k.resource_group_name ≠ c.resource_group_name ∨ k.web_app_name ≠ w ∨
        k.metric ∉ metric_groups itv) →
    ∀ reg, runCycleReg cfgs env reg k = reg k := by
  induction cfgs with
  | nil => intro _ reg; rfl
  | cons c0 rest ih =>
    intro h reg
    show (rest.foldl (fun r c => runConfigReg env c r) (runConfigReg env c0 reg)) k = reg k
    rw [show (rest.foldl (fun r c => runConfigReg env c r) (runConfigReg env c0 reg)) =
        runCycleReg rest env (runConfigReg env c0 reg) from rfl]
    rw [ih (fun c hc itv hitv => h c (List.mem_cons_of_mem c0 hc) itv hitv) _]
    exact runConfigReg_frame env c0 k (h c0 (List.mem_cons_self c0 rest)) reg

theorem metricsFetch_mem_runCycleEvents (cfgs : List WebAppConfig) (env : Env)
    (c : WebAppConfig) (itv w : String)
    (hc : c ∈ cfgs) (hitv : itv ∈ intervalList) (hw : w ∈ c.web_app_names)
    (htok : (env.tokenFor c).isSome = true) :
    FetchEvent.metricsFetch c.subscription_id c.resource_group_name w itv ∈
      runCycleEvents cfgs env := by
  unfold runCycleEvents
  rw [List.mem_flatMap]
  refine ⟨c, hc, ?_⟩
  rw [List.mem_flatMap]
  refine ⟨itv, hitv, ?_⟩
  unfold get_azure_metrics_events
  cases htok2 : env.tokenFor c with
  | none => rw [htok2] at htok; simp at htok
  | some tok =>
    apply List.mem_cons_of_mem
    rw [List.mem_flatMap]
    exact ⟨w, hw, by simp⟩

/-- C2: (1) whatever happens to every other resource, a resource whose
token acquisition and metrics fetch succeed in a cycle has all its
samples committed to the registry by that cycle; (2) the fetches a cycle
attempts depend only on the configuration and the present environment —
in particular every configured resource, including one whose fetch
failed in the previous cycle, gets its metrics fetch attempted in the
next cycle whenever its token is granted. -/
theorem C2_failure_isolation :
    (∀ (cfgs : List WebAppConfig) (env : Env) (reg : Registry) (c : WebAppConfig)
        (w itv : String) (data : RawResponse),
      c ∈ cfgs → itv ∈ intervalList → w ∈ c.web_app_names →
      c.web_app_names.Nodup →
      (∀ c' ∈ cfgs, c' = c ∨ c'.resource_group_name ≠ c.resource_group_name ∨
        w ∉ c'.web_app_names) →
      (env.tokenFor c).isSome = true →
      env.metricsResp c w itv = .ok data →
      ∀ m ∈ metric_groups itv,
        runCycleReg cfgs env reg
          ⟨m, c.resource_group_name, w, get_webapp_plan_name env c w⟩ =
          some (get_metric_value m (encodeResponse data))) ∧
    (∀ (cfgs : List WebAppConfig) (env2 : Env) (c : WebAppConfig) (w itv : String),
      c ∈ cfgs → itv ∈ intervalList → w ∈ c.web_app_names →
      (env2.tokenFor c).isSome = true →
      FetchEvent.metricsFetch c.subscription_id c.resource_group_name w itv ∈
        runCycleEvents cfgs env2) := by
  constructor
  · intro cfgs env reg c w itv data hc hitv hw hnd hdisj htok hok m hm
    exact runCycleReg_commit cfgs env reg c itv w data m hc hdisj hitv htok hnd hw hok hm
  · intro cfgs env2 c w itv hc hitv hw htok
    exact metricsFetch_mem_runCycleEvents cfgs env2 c itv w hc hitv hw htok

/-- Witness for C2: with `app-fail` answering 429, `app-ok`'s `CpuTime`
still lands in the registry, and in a following cycle (any environment
granting the token — here the same one) `app-fail`'s fetch is attempted. -/
theorem C2_failure_isolation_witness :
    runCycleReg [cexConfig] cexEnv emptyRegistry
      ⟨"CpuTime", "rg", "app-ok", "unknown_plan"⟩ = some (JValue.num 5) ∧
    FetchEvent.metricsFetch "sub" "rg" "app-fail" "PT5M" ∈
      runCycleEvents [cexConfig] cexEnv := by
  constructor
  · exact C2_failure_isolation.1 [cexConfig] cexEnv emptyRegistry cexConfig
      "app-ok" "PT5M" cexResponse (List.mem_cons_self _ _) (by decide) (by decide)
      (by decide) (fun c' hc' => Or.inl (by simpa using hc')) rfl rfl
      "CpuTime" (by decide)
  · exact C2_failure_isolation.2 [cexConfig] cexEnv cexConfig "app-fail" "PT5M"
      (List.mem_cons_self _ _) (by decide) (by decide) rfl

/-- C3: a registry key whose resource's metrics fetch does not succeed
this cycle (failed token, non-200 status or exception — e.g. HTTP 429)
is left exactly as it was: stale value kept, absent key still absent; no
error path clears or overwrites an entry. -/
theorem C3_failed_fetch_preserves_entry :
    ∀ (cfgs : List WebAppConfig) (env : Env) (reg : Registry) (k : RegKey),
      (∀ c ∈ cfgs, ∀ itv ∈ intervalList, ∀ w ∈ c.web_app_names,
        (k.resource_group_name = c.resource_group_name ∧ k.web_app_name = w ∧
         k.metric ∈ metric_groups itv) →
        env.tokenFor c = none ∨ (env.metricsResp c w itv).isOk = false) →
      runCycleReg cfgs env reg k = reg k := by
  intro cfgs env reg k h
  refine runCycleReg_frame cfgs env k (fun c hc itv hitv => ?_) reg
  by_cases htok : env.tokenFor c = none
  · exact Or.inl htok
  · refine Or.inr (fun w hw => ?_)
    by_cases h1 : k.resource_group_name = c.resource_group_name
    · by_cases h2 : k.web_app_name = w
      · by_cases h3 : k.metric ∈ metric_groups itv
        · rcases h c hc itv hitv w hw ⟨h1, h2, h3⟩ with h4 | h4
          · exact absurd h4 htok
          · exact Or.inl h4
        · right; right; right; exact h3
      · right; right; left; exact h2
    · right; left; exact h1

/-- Witness for C3: under all-429 responses, the previously committed
`42` survives the cycle and a never-committed key stays absent. -/
theorem C3_failed_fetch_preserves_entry_witness :
    runCycleReg [cexConfig] cexEnvAllFail cexRegistryPrev
      ⟨"CpuTime", "rg", "app-fail", "unknown_plan"⟩ = some (JValue.num 42) ∧
    runCycleReg [cexConfig] cexEnvAllFail cexRegistryPrev
      ⟨"Requests", "rg", "app-ok", "unknown_plan"⟩ = none := by
  constructor
  · exact (C3_failed_fetch_preserves_entry [cexConfig] cexEnvAllFail cexRegistryPrev
      ⟨"CpuTime", "rg", "app-fail", "unknown_plan"⟩
      (fun c hc itv hitv w hw hmatch => Or.inr rfl)).trans rfl
  · exact (C3_failed_fetch_preserves_entry [cexConfig] cexEnvAllFail cexRegistryPrev
      ⟨"Requests", "rg", "app-ok", "unknown_plan"⟩
      (fun c hc itv hitv w hw hmatch => Or.inr rfl)).trans rfl

/-- C6: when the plan-resolution GET fails (non-200 status, transport
error, or a 200 without a plan reference), the resolver returns the
sentinel `"unknown_plan"`, the metrics fetch for the resource is still
issued, and a successful metrics fetch commits its samples under
`plan_name = "unknown_plan"`. -/
theorem C6_unknown_plan_fallback :
    ∀ (cfgs : List WebAppConfig) (env : Env) (reg : Registry) (c : WebAppConfig)
        (w itv : String) (data : RawResponse),
      c ∈ cfgs → itv ∈ intervalList → w ∈ c.web_app_names → c.web_app_names.Nodup →
      (∀ c' ∈ cfgs, c' = c ∨ c'.resource_group_name ≠ c.resource_group_name ∨
        w ∉ c'.web_app_names) →
      (env.tokenFor c).isSome = true →
      ((∃ s, env.planResp c w = .httpError s) ∨ env.planResp c w = .exn ∨
        env.planResp c w = .ok ⟨none⟩) →
      env.metricsResp c w itv = .ok data →
      get_webapp_plan_name env c w = "unknown_plan" ∧
      (FetchEvent.metricsFetch c.subscription_id c.resource_group_name w itv ∈
        runCycleEvents cfgs env) ∧
      ∀ m ∈ metric_groups itv,
        runCycleReg cfgs env reg ⟨m, c.resource_group_name, w, "unknown_plan"⟩ =
          some (get_metric_value m (encodeResponse data)) := by
  intro cfgs env reg c w itv data hc hitv hw hnd hdisj htok hplan hok
  have hup : get_webapp_plan_name env c w = "unknown_plan" := by
    unfold get_webapp_plan_name
    rcases hplan with ⟨s, hs⟩ | hs | hs <;> rw [hs]
  refine ⟨hup, metricsFetch_mem_runCycleEvents cfgs env c itv w hc hitv hw htok, ?_⟩
  intro m hm
  have hcommit := runCycleReg_commit cfgs env reg c itv w data m hc hdisj hitv htok hnd hw hok hm
  rwa [hup] at hcommit

/-- Witness for C6: the plan GET raises, yet `app-ok`'s metrics land
under `plan_name = "unknown_plan"` (the absent `Requests` series
normalizes to 0). -/
theorem C6_unknown_plan_fallback_witness :
    get_webapp_plan_name cexEnv cexConfig "app-ok" = "unknown_plan" ∧
    runCycleReg [cexConfig] cexEnv emptyRegistry
      ⟨"Requests", "rg", "app-ok", "unknown_plan"⟩ = some (JValue.num 0) := by
  have h := C6_unknown_plan_fallback [cexConfig] cexEnv emptyRegistry cexConfig
    "app-ok" "PT5M" cexResponse (List.mem_cons_self _ _) (by decide) (by decide)
    (by decide) (fun c' hc' => Or.inl (by simpa using hc')) rfl
    (Or.inr (Or.inl rfl)) rfl
  exact ⟨h.1, h.2.2 "Requests" (by decide)⟩

theorem schedAt_closed (dur : ℕ → ℕ) (n : ℕ) :
    schedAt dur (2 * n) = ⟨n, .fetching, cycleStart dur n⟩ := by
  induction n with
  | zero => rfl
  | succ k ih =>
    rw [show 2 * (k + 1) = 2 * k + 1 + 1 from by ring]
    show schedStep dur (schedStep dur (schedAt dur (2 * k))) = _
    rw [ih]
    rfl

/-- C5 counterexample: with a 10-unit cycle the loop starts cycle 1 at
time 70, not at the claimed fixed-period time 60. -/
theorem C5_cycle_period_counterexample :
    (schedAt (fun _ => 10) 2).clock ≠ claimCycleStart (fun _ => 10) 1 := by decide

/-- C5 (amended): the worker sleeps a fixed 60 time units after each
cycle completes, so consecutive cycle starts are separated by the
previous cycle's duration plus 60 — at least 60, and growing with the
cycle's duration rather than fixed. -/
theorem C5_fixed_sleep_after_cycle :
    ∀ (dur : ℕ → ℕ) (n : ℕ),
      schedAt dur (2 * n) = ⟨n, .fetching, cycleStart dur n⟩ ∧
      cycleStart dur (n + 1) = cycleStart dur n + dur n + 60 ∧
      60 + dur n ≤ cycleStart dur (n + 1) - cycleStart dur n := by
  intro dur n
  refine ⟨schedAt_closed dur n, rfl, ?_⟩
  have h : cycleStart dur (n + 1) = cycleStart dur n + dur n + 60 := rfl
  omega

/-- C7 counterexample: the claim requires every loader to degrade an
absent file to an empty resource set without crashing, but
`load_config` propagates the exception instead. -/
theorem C7_load_config_counterexample :
    load_config ConfigSource.absent ≠ Except.ok [] := by
  intro h
  exact Except.noConfusion h

/-- C7 (amended): the scheduler workers' `load_webapp_configs` turns an
absent or malformed configuration into an empty resource set (and such
a worker's cycles touch nothing and fetch nothing), while the plan
exporter's `load_config` propagates the exception and that process
crashes at startup. -/
theorem C7_config_loading_amended :
    (∀ src : ConfigSource, src.isBad → load_webapp_configs src = []) ∧
    (∀ src : ConfigSource, src.isBad → ∃ e, load_config src = .error e) ∧
    (∀ (env : Env) (reg : Registry),
      runCycleReg (load_webapp_configs ConfigSource.absent) env reg = reg ∧
      runCycleEvents (load_webapp_configs ConfigSource.absent) env = []) := by
  refine ⟨?_, ?_, ?_⟩
  · intro src h
    cases src with
    | absent => rfl
    | malformed _ => rfl
    | wellFormed _ => cases h
  · intro src h
    cases src with
    | absent => exact ⟨.fileNotFound, rfl⟩
    | malformed _ => exact ⟨.jsonDecodeError, rfl⟩
    | wellFormed _ => cases h
  · intro env reg
    exact ⟨rfl, rfl⟩

/-- Witness for C7 at the concrete source `absent`. -/
theorem C7_config_loading_amended_witness :
    load_webapp_configs ConfigSource.absent = [] ∧
    ∃ e, load_config ConfigSource.absent = .error e :=
  ⟨C7_config_loading_amended.1 ConfigSource.absent trivial,
   C7_config_loading_amended.2.1 ConfigSource.absent trivial⟩

theorem freshWorker_ne (w0 : WorkerProc) : freshWorker (w0.incarnation + 1) ≠ w0 := by
  intro h
  have h2 := congrArg WorkerProc.incarnation h
  simp only [freshWorker] at h2
  omega

/-- C9: before the worker's termination time every poll leaves the
original worker in place; from the first poll at or after the
termination — which occurs less than one 10-unit poll interval after
it — the supervisor has started a fresh replacement in `Idle`; and the
restart command resolves each worker name to its own entry-point
script. -/
theorem C9_supervisor_restart :
    ∀ (d : ℕ) (w0 : WorkerProc),
      (∀ k : ℕ, 10 * k < d → monitor_poll d w0 k = w0) ∧
      (∀ k : ℕ, d ≤ 10 * k →
        monitor_poll d w0 k = freshWorker (w0.incarnation + 1) ∧
        (monitor_poll d w0 k).st = SchedState.Idle) ∧
      (∃ k : ℕ, d ≤ 10 * k ∧ 10 * k < d + 10) ∧
      worker_script "WebApp Metrics" = "webapp_metrics.py" ∧
      worker_script "Plan Metrics" = "plan_metrics.py" := by
  intro d w0
  have halive : ∀ k : ℕ, 10 * k < d → monitor_poll d w0 k = w0 := by
    intro k
    induction k with
    | zero =>
      intro hk
      show (if d ≤ 10 * 0 then freshWorker (w0.incarnation + 1) else w0) = w0
      rw [if_neg (by omega)]
    | succ j ih =>
      intro hk
      show (if monitor_poll d w0 j = w0 ∧ d ≤ 10 * (j + 1)
            then freshWorker (w0.incarnation + 1) else monitor_poll d w0 j) = w0
      rw [if_neg (by rintro ⟨-, h2⟩; omega), ih (by omega)]
  have hdead : ∀ k : ℕ, d ≤ 10 * k →
      monitor_poll d w0 k = freshWorker (w0.incarnation + 1) := by
    intro k
    induction k with
    | zero =>
      intro hk
      show (if d ≤ 10 * 0 then freshWorker (w0.incarnation + 1) else w0) = _
      rw [if_pos hk]
    | succ j ih =>
      intro hk
      show (if monitor_poll d w0 j = w0 ∧ d ≤ 10 * (j + 1)
            then freshWorker (w0.incarnation + 1) else monitor_poll d w0 j) = _
      by_cases hj : d ≤ 10 * j
      · rw [if_neg (by
          rintro ⟨h1, -⟩
          rw [ih hj] at h1
          exact freshWorker_ne w0 h1)]
        exact ih hj
      · rw [if_pos ⟨halive j (by omega), hk⟩]
  refine ⟨halive, fun k hk => ⟨hdead k hk, by rw [hdead k hk]; rfl⟩,
    ⟨(d + 9) / 10, by omega, by omega⟩, rfl, rfl⟩

/-- Witness for C9: a worker dying at time 15 is still in place at the
poll at time 10 and replaced by an `Idle` incarnation at the poll at
time 20. -/
theorem C9_supervisor_restart_witness :
    monitor_poll 15 ⟨0, SchedState.Sleeping⟩ 1 = ⟨0, SchedState.Sleeping⟩ ∧
    monitor_poll 15 ⟨0, SchedState.Sleeping⟩ 2 = freshWorker 1 ∧
    (monitor_poll 15 ⟨0, SchedState.Sleeping⟩ 2).st = SchedState.Idle := by
  have h := C9_supervisor_restart 15 ⟨0, SchedState.Sleeping⟩
  exact ⟨h.1 1 (by omega), (h.2.1 2 (by omega)).1, (h.2.1 2 (by omega)).2⟩

/-- C4: (1) a still-valid cached token is returned as-is, with no
exchange performed and the cache untouched; (2) an exchange is performed
only on a cache miss or a token expired or within the safety margin;
(3) a failing exchange never changes the cache — any cached token is
retained — and, when actually performed, yields `authFailure`. -/
theorem C4_token_cache :
    ∀ (margin now : ℕ) (exchange : Option Token) (st : CredCache) (idKey : String),
      (∀ t, st.cache idKey = some t → now + margin < t.expiry_time →
        get_token margin now exchange st idKey = (.ok t, st, false)) ∧
      ((get_token margin now exchange st idKey).2.2 = true →
        st.cache idKey = none ∨
        ∃ t, st.cache idKey = some t ∧ t.expiry_time ≤ now + margin) ∧
      (exchange = none →
        (get_token margin now exchange st idKey).2.1 = st ∧
        ((get_token margin now exchange st idKey).2.2 = true →
          (get_token margin now exchange st idKey).1 = .authFailure)) := by
  intro margin now exchange st idKey
  refine ⟨?_, ?_, ?_⟩
  · intro t ht hvalid
    unfold get_token
    rw [ht]
    show (if now + margin < t.expiry_time then (TokenResult.ok t, st, false)
          else refreshToken exchange st idKey) = (TokenResult.ok t, st, false)
    rw [if_pos hvalid]
  · intro hx
    cases hc : st.cache idKey with
    | none => exact Or.inl rfl
    | some t =>
      refine Or.inr ⟨t, rfl, ?_⟩
      by_cases hv : now + margin < t.expiry_time
      · exfalso
        unfold get_token at hx
        rw [hc] at hx
        have hx2 : (if now + margin < t.expiry_time then (TokenResult.ok t, st, false)
            else refreshToken exchange st idKey).2.2 = true := hx
        rw [if_pos hv] at hx2
        exact Bool.noConfusion hx2
      · omega
  · intro hex
    subst hex
    unfold get_token
    cases hc : st.cache idKey with
    | none => exact ⟨rfl, fun _ => rfl⟩
    | some t =>
      by_cases hv : now + margin < t.expiry_time
      · constructor
        · show (if now + margin < t.expiry_time then (TokenResult.ok t, st, false)
              else refreshToken none st idKey).2.1 = st
          rw [if_pos hv]
        · intro hfalse
          have hx2 : (if now + margin < t.expiry_time then (TokenResult.ok t, st, false)
              else refreshToken none st idKey).2.2 = true := hfalse
          rw [if_pos hv] at hx2
          exact Bool.noConfusion hx2
      · constructor
        · show (if now + margin < t.expiry_time then (TokenResult.ok t, st, false)
              else refreshToken none st idKey).2.1 = st
          rw [if_neg hv]
          rfl
        · intro hperf
          show (if now + margin < t.expiry_time then (TokenResult.ok t, st, false)
              else refreshToken none st idKey).1 = TokenResult.authFailure
          rw [if_neg hv]
          rfl

/-- Witness for C4: a cached token valid past the margin is returned
without an exchange; with an empty cache a failing exchange leaves the
cache unchanged and returns `authFailure`; the exchange performed there
is justified by a cache miss. -/
theorem C4_token_cache_witness :
    get_token 30 100 none cexCredCache "id1" = (.ok cexToken, cexCredCache, false) ∧
    (get_token 30 100 none emptyCredCache "id1").2.1 = emptyCredCache ∧
    (get_token 30 100 none emptyCredCache "id1").1 = TokenResult.authFailure ∧
    (emptyCredCache.cache "id1" = none ∨
      ∃ t, emptyCredCache.cache "id1" = some t ∧ t.expiry_time ≤ 130) := by
  refine ⟨(C4_token_cache 30 100 none cexCredCache "id1").1 cexToken rfl (by decide),
    ((C4_token_cache 30 100 none emptyCredCache "id1").2.2 rfl).1,
    ((C4_token_cache 30 100 none emptyCredCache "id1").2.2 rfl).2 rfl,
    (C4_token_cache 30 100 none emptyCredCache "id1").2.1 rfl⟩
